import Mathlib

/-!
Verification development for the MATT_Report data pipeline
(`scripts/process_matt.py`).

Shallow embedding conventions:
* pandas DataFrames are lists of structure values, one structure per row;
* nullable cells are `Option` values (`none` = NaN/NaT);
* dates are integer day ordinals (`Int`); `pd.to_datetime(..., errors='coerce')`
  is modelled by `parseDate`, a lenient parser returning `none` on failure;
* Python floats are modelled by `ℚ` (the numeric values arising here are exact
  decimals, so no rounding behaviour is lost);
* Python string primitives (`str.strip`, `str.replace`, slicing, `int()`,
  `str.upper`) are re-implemented on `List Char` so that they evaluate inside
  the kernel.
-/

namespace MattReport

/-- Model of Python `str.strip()`: drop whitespace from both ends. -/
def pyStrip (s : String) : String :=
  ⟨((s.data.dropWhile (fun c => c.isWhitespace)).reverse.dropWhile
      (fun c => c.isWhitespace)).reverse⟩

/-- Model of Python slicing `s[:5]` (pandas `.str[:5]`). -/
def pyTake5 (s : String) : String := ⟨s.data.take 5⟩

/-- Model of Python `str.upper()` (ASCII, as produced by the source data). -/
def pyUpper (s : String) : String := ⟨s.data.map Char.toUpper⟩

/-- Model of pandas `astype(str)` on a nullable cell: `NaN` stringifies to the
literal text `"nan"` (Python `str(float('nan'))`). -/
def pyToStr (v : Option String) : String :=
  match v with
  | none => "nan"
  | some s => s

/-- Numeric value of a digit list (most significant first); helper for the
integer/decimal parsers. No emptiness or digit check here. -/
def digitsNat (l : List Char) : Nat :=
  l.foldl (fun a c => 10 * a + (c.toNat - 48)) 0

/-- Digit-list parser: succeeds only on a nonempty all-digit list. -/
def digitsVal (l : List Char) : Option Nat :=
  if l.isEmpty then none
  else if l.all (fun c => c.isDigit) then some (digitsNat l) else none

/-- Model of Python `int(s)` (as invoked by pandas `astype(int)` on a string
column): strip whitespace, optional sign, then a nonempty digit run; anything
else raises, modelled as `none`. -/
def parseIntStrict (s : String) : Option Int :=
  match (pyStrip s).data with
  | '-' :: ds => (digitsVal ds).map (fun n => -(n : Int))
  | '+' :: ds => (digitsVal ds).map (fun n => (n : Int))
  | ds => (digitsVal ds).map (fun n => (n : Int))

/-- Model of `pd.to_datetime(x, errors='coerce')` on one cell. Dates are
abstracted to integer day ordinals, so the lenient date parser is the lenient
integer parser; an unparseable string coerces to `none` (NaT). -/
def parseDate (s : String) : Option Int := parseIntStrict s

/-- Left-to-right, non-overlapping removal of every occurrence of the
two-character pattern `".0"`, exactly the semantics of Python
`s.replace(".0", "")` as invoked by
`matt_df['PLAN_CODE'].str.replace('.0', '', regex=False)` (line 35). -/
def stripDotZero : List Char → List Char
  | [] => []
  | [c] => [c]
  | c1 :: c2 :: rest =>
    if c1 = '.' ∧ c2 = '0' then stripDotZero rest
    else c1 :: stripDotZero (c2 :: rest)

/-- Plan-code join-key normalization from line 35 of `process_matt.py`:
`astype(str).str.strip().str.replace('.0', '', regex=False)`. -/
def norm_plan_code (s : String) : String := ⟨stripDotZero (pyStrip s).data⟩

/-- Detector for an occurrence of the substring `".0"`. -/
def hasDotZero : List Char → Bool
  | [] => false
  | [_] => false
  | c1 :: c2 :: rest =>
    if c1 = '.' ∧ c2 = '0' then true else hasDotZero (c2 :: rest)

/-- The pace-vs-margin `classify` function (lines 208–216 of
`process_matt.py`), first-match-wins over the Python chained comparisons. -/
def classify (delta : ℚ) : String :=
  if delta > 1 then "Margin"
  else if 0 < delta ∧ delta ≤ 1 then "Target"
  else if -2 < delta ∧ delta ≤ 0 then "Pace"
  else "Behind"

/-- `weeks_left = (target_date - today).days / 7` (line 193); the day
difference is an integer, the division is Python true division. -/
def weeks_left (today target : Int) : ℚ := ((target - today : Int) : ℚ) / 7

/-- `slope = 1 / weeks_left if weeks_left > 0 else 0` (line 194). -/
def slope (today target : Int) : ℚ :=
  if weeks_left today target > 0 then 1 / weeks_left today target else 0

/-- One raw MATT row, restricted to the columns `process_matt_data` reads
(after the line 28 renames `Textbox4` → `HS_TYPE`, `Textbox22` →
`Net_Sales_Price`). Date columns arrive as raw strings. -/
structure RawRow where
  COMMUNITY : String
  PLAN_CODE : String
  SALE_DATE : String
  EST_COE_DATE : String
  NHC_NAME : String
  COBROKE_Y_N : Option String
  SALES_CANCELLATION_DATE : String
  HS_TYPE : String
deriving DecidableEq

/-- One row of `Hub.csv`: `Community Number`, `Hub`, `Community Name`. -/
structure HubRow where
  communityNumber : Int
  hub : String
  communityName : String
deriving DecidableEq

/-- One row of `Plan.csv`: `Plan Code`, `Plan Name`, `Collection`. -/
structure PlanRow where
  planCode : String
  planName : String
  collection : String
deriving DecidableEq

/-- `pandas.Series.dt.day_name()` on the integer-day model: weekday name by
day ordinal mod 7 (epoch chosen so that day 0 is a Monday). -/
def day_name (d : Int) : String :=
  ["Monday", "Tuesday", "Wednesday", "Thursday", "Friday", "Saturday",
   "Sunday"].getD (d % 7).toNat "Monday"

/-- The line 52 condition `merged_df['DOW_Sale'].isin(['Saturday','Sunday'])`:
`Series.isin` is `False` on a NaN cell, so a null day-of-week is not in the
weekend set. -/
def dowIsWeekend : Option String → Bool
  | some d => d == "Saturday" || d == "Sunday"
  | none => false

/-- `map_realtor_direct` (lines 94–96): `{'Y': 'Realtor', '': 'Direct',
None: 'Direct'}.get(value, 'Direct')`. -/
def map_realtor_direct : Option String → String
  | some "Y" => "Realtor"
  | some "" => "Direct"
  | none => "Direct"
  | some _ => "Direct"

/-- The fixed investor NHC-name allow-list (lines 57–66), normalized by
strip + upper as on line 67. -/
def investor_names_normalized : List String :=
  ["Chanin, Kristian                   (DFW)",
   "PEREZ, LARRY",
   "LAWRENCE PETER                          ",
   "Perez, Larry                       (DFW)",
   "Stierwalt, Tanner                  (DFW)",
   "Krueger, Cole                      (HOU)",
   "Shackelford, Leah                  (HOU)",
   "Batchelor, Christina               (HOU)"].map
    (fun s => pyUpper (pyStrip s))

/-- `status_map` + `fillna` passthrough (lines 83–89). -/
def statusLabel (t : String) : String :=
  if t = "B" then "Backlog"
  else if t = "S" then "Unsold"
  else if t = "Z" then "Closed"
  else if t = "M" then "Model"
  else t

/-- One enriched output row of `process_matt_data` (the columns the spec and
the metric engines use). -/
structure Enriched where
  commNum : Int
  PLAN_CODE : String
  Hub : String
  communityName : String
  planName : String
  Collection : Option String
  SALE_DATE : Option Int
  EST_COE_DATE : Option Int
  DOW_Sale : Option String
  Weekday_Group : String
  investorSale : String
  realtorDirect : String
  HS_TYPE : String
  HS_TYPE_LABEL : String
  cancellationDateParsed : Option Int
deriving DecidableEq

/-- Field derivation for one merged row: `r` is the raw row, `n` its `Comm_#`,
`h`/`p` its (possibly missing) `Hub.csv` / `Plan.csv` match. Lines 42–44
apply `astype(str).str.strip()` to the three lookup name columns, so a
missing match stringifies to `"nan"`; `Collection` is never restringified and
stays null on a missing match. -/
def enrichRow (r : RawRow) (n : Int) (h : Option HubRow) (p : Option PlanRow) :
    Enriched :=
  { commNum := n
    PLAN_CODE := norm_plan_code r.PLAN_CODE
    Hub := pyStrip (pyToStr (h.map (fun x => x.hub)))
    communityName := pyStrip (pyToStr (h.map (fun x => x.communityName)))
    planName := pyStrip (pyToStr (p.map (fun x => x.planName)))
    Collection := p.map (fun x => x.collection)
    SALE_DATE := parseDate r.SALE_DATE
    EST_COE_DATE := parseDate r.EST_COE_DATE
    DOW_Sale := (parseDate r.SALE_DATE).map day_name
    Weekday_Group :=
      if dowIsWeekend ((parseDate r.SALE_DATE).map day_name) then "Sat-Sun"
      else "M-F"
    investorSale :=
      if investor_names_normalized.contains (pyUpper (pyStrip r.NHC_NAME))
      then "Investor" else "Retail"
    realtorDirect := map_realtor_direct (some (pyStrip (r.COBROKE_Y_N.getD "")))
    HS_TYPE := r.HS_TYPE
    HS_TYPE_LABEL := statusLabel r.HS_TYPE
    cancellationDateParsed := parseDate (pyStrip r.SALES_CANCELLATION_DATE) }

/-- The `Hub.csv` matches of a raw row: `pd.merge(..., how='left',
left_on='Comm_#', right_on='Community Number')` (line 39) pairs the row with
every hub row whose key equals its `Comm_#`, in hub-table order. -/
def hubMatches (hub : List HubRow) (n : Int) : List HubRow :=
  hub.filter (fun h => h.communityNumber == n)

/-- The `Plan.csv` matches of a raw row: line 36 strips the `Plan Code`
column, line 40 left-merges on the normalized `PLAN_CODE`. -/
def planMatches (plan : List PlanRow) (key : String) : List PlanRow :=
  plan.filter (fun p => pyStrip p.planCode == key)

/-- All enriched rows produced from one raw row: `none` models the
`ValueError` that `astype(int)` raises on a non-numeric 5-character prefix
(line 34), which aborts the whole pipeline. Left-merge semantics: a row with
no match survives once with a null match; a row with k matches appears k
times (once per match), hub matches outer, plan matches inner. -/
def process_row (hub : List HubRow) (plan : List PlanRow) (r : RawRow) :
    Option (List Enriched) :=
  (parseIntStrict (pyTake5 r.COMMUNITY)).map (fun n =>
    let hs : List (Option HubRow) :=
      if (hubMatches hub n).isEmpty then [none]
      else (hubMatches hub n).map some
    let ps : List (Option PlanRow) :=
      if (planMatches plan (norm_plan_code r.PLAN_CODE)).isEmpty then [none]
      else (planMatches plan (norm_plan_code r.PLAN_CODE)).map some
    hs.flatMap (fun h => ps.map (fun p => enrichRow r n h p)))

/-- Row-by-row pipeline body; any failed `Comm_#` parse aborts the whole
run (pandas computes the `Comm_#` column in one vectorized call, so one bad
row fails every row). -/
def process_rows (hub : List HubRow) (plan : List PlanRow) :
    List RawRow → Option (List Enriched)
  | [] => some []
  | r :: rest =>
    match process_row hub plan r, process_rows hub plan rest with
    | some l, some ls => some (l ++ ls)
    | _, _ => none

/-- `process_matt_data` (lines 17–91), with the two reference tables passed
explicitly (the source loads them from fixed CSV paths, lines 19–25). -/
def process_matt_data (matt : List RawRow) (hub : List HubRow)
    (plan : List PlanRow) : Option (List Enriched) :=
  process_rows hub plan matt

/-- Regex `[$,]` with empty replacement (line 117): delete every `$` and `,`
character. -/
def stripDollarComma (s : String) : String :=
  ⟨s.data.filter (fun c => !(c == '$' || c == ','))⟩

/-- Regex `^\((.*)\)$` → `-\1` (line 118): a string that is fully wrapped in
one pair of parentheses becomes a minus sign followed by the inner text. -/
def parenNeg (s : String) : String :=
  match s.data with
  | '(' :: rest =>
    if rest.getLast? = some ')' then ⟨'-' :: rest.dropLast⟩ else s
  | _ => s

/-- Split a character list at every `.` (helper for the decimal parser). -/
def splitDot : List Char → List (List Char)
  | [] => [[]]
  | c :: rest =>
    if c = '.' then [] :: splitDot rest
    else
      match splitDot rest with
      | h :: t => (c :: h) :: t
      | [] => [[c]]

/-- Unsigned decimal parser: digit run, or digit runs around one `.` (at
least one digit overall), as accepted by `pd.to_numeric`. -/
def numAbs (s : String) : Option ℚ :=
  match splitDot s.data with
  | [a] => (digitsVal a).map (fun n => (n : ℚ))
  | [a, b] =>
    if (a ++ b).isEmpty then none
    else if (a ++ b).all (fun c => c.isDigit) then
      some ((digitsNat (a ++ b) : ℚ) / 10 ^ b.length)
    else none
  | _ => none

/-- Model of `pd.to_numeric(s, errors='coerce')` on one cell: optional sign
then a decimal literal; anything else (including the stringified NaN `"nan"`)
coerces to null. -/
def to_numeric (s : String) : Option ℚ :=
  match s.data with
  | '-' :: rest => (numAbs ⟨rest⟩).map (fun q => -q)
  | '+' :: rest => numAbs ⟨rest⟩
  | _ => numAbs s

/-- The monetary-column cleaning of lines 114–120: drop `$`/`,`, rewrite a
fully parenthesized value to a negated one, then coerce leniently. -/
def cleanMoney (s : String) : Option ℚ :=
  to_numeric (parenNeg (stripDollarComma s))

/-- Distinct values in order of first appearance (the group keys of a
groupby; output order is irrelevant to every property proved here). -/
def uniqKeys : List String → List String
  | [] => []
  | k :: rest => k :: uniqKeys (rest.filter (fun x => x ≠ k))
termination_by l => l.length
decreasing_by
  simp only [List.length_cons]
  exact Nat.lt_succ_of_le (List.length_filter_le _ _)

/-- pandas `mean` with default `skipna=True`: null entries are excluded; an
all-null column has a null mean. -/
def meanOpt (l : List (Option ℚ)) : Option ℚ :=
  let v := l.filterMap id
  if v.isEmpty then none else some (v.sum / v.length)

/-- One input row of `compute_plan_pricing`: the pricing columns as raw text
(the enriched table carries them through untouched), `SALE_DATE` already
parsed (line 109 re-runs `to_datetime` on it, which is the identity on the
integer-day model), `TOTAL_SQFT` numeric-or-null, and `groupVal` the value of
the caller's `group_col` column(s) for this row. -/
structure PriceRow where
  groupVal : String
  SALE_DATE : Option Int
  BASE_PRICE : String
  HOMESITE_PREMIUM : String
  PRICE_REDUCTION_INCENTIVES : String
  OPTION_REVENUE : String
  Net_Sales_Price : String
  TOTAL_SQFT : Option ℚ
deriving DecidableEq

/-- Line 110 filter: `SALE_DATE` inside `[start, end]`; a NaT date compares
`False` on both sides. -/
def inWindow (startD endD : Int) (r : PriceRow) : Bool :=
  match r.SALE_DATE with
  | some d => decide (startD ≤ d) && decide (d ≤ endD)
  | none => false

/-- Lines 123–128: `List Price` is the sum of the four cleaned components
with nulls coalesced to 0 (`fillna(0)`). -/
def list_price (r : PriceRow) : ℚ :=
  (cleanMoney r.BASE_PRICE).getD 0 + (cleanMoney r.HOMESITE_PREMIUM).getD 0 +
    (cleanMoney r.PRICE_REDUCTION_INCENTIVES).getD 0 +
    (cleanMoney r.OPTION_REVENUE).getD 0

/-- One output row of `compute_plan_pricing` (after the line 140 renames). -/
structure PricingSummaryRow where
  key : String
  avgBasePrice : Option ℚ
  avgListPrice : Option ℚ
  avgNetRevenue : Option ℚ
  avgSqFt : Option ℚ
deriving DecidableEq

/-- The per-group aggregation of lines 132–137: mean of each column over the
group, with pandas skipna semantics. -/
def summarize (rows : List PriceRow) (k : String) : PricingSummaryRow :=
  { key := k
    avgBasePrice :=
      meanOpt ((rows.filter (fun r => r.groupVal == k)).map
        (fun r => cleanMoney r.BASE_PRICE))
    avgListPrice :=
      meanOpt ((rows.filter (fun r => r.groupVal == k)).map
        (fun r => some (list_price r)))
    avgNetRevenue :=
      meanOpt ((rows.filter (fun r => r.groupVal == k)).map
        (fun r => cleanMoney r.Net_Sales_Price))
    avgSqFt :=
      meanOpt ((rows.filter (fun r => r.groupVal == k)).map
        (fun r => r.TOTAL_SQFT)) }

/-- Stable insertion of one element (helper for the line 147 sort). -/
def insertLe (le : PricingSummaryRow → PricingSummaryRow → Bool)
    (a : PricingSummaryRow) : List PricingSummaryRow → List PricingSummaryRow
  | [] => [a]
  | b :: t => if le a b then a :: b :: t else b :: insertLe le a t

/-- Sort for `summary.sort_values(by='Avg SqFt')` (line 147). -/
def sortLe (le : PricingSummaryRow → PricingSummaryRow → Bool) :
    List PricingSummaryRow → List PricingSummaryRow
  | [] => []
  | a :: t => insertLe le a (sortLe le t)

/-- Ascending order on `Avg SqFt` with nulls last (pandas `na_position`
default). -/
def sqftLe (a b : PricingSummaryRow) : Bool :=
  match a.avgSqFt, b.avgSqFt with
  | some x, some y => decide (x ≤ y)
  | some _, none => true
  | none, some _ => false
  | none, none => true

/-- `compute_plan_pricing` (lines 107–148): date-window filter, monetary
cleaning, `List Price` synthesis, groupby means, sort by average square
footage. Only the relative order of ties differs from pandas (whose default
sort is unstable); every property proved below is order-insensitive. -/
def compute_plan_pricing (df : List PriceRow) (startD endD : Int) :
    List PricingSummaryRow :=
  sortLe sqftLe
    ((uniqKeys ((df.filter (inWindow startD endD)).map
        (fun r => r.groupVal))).map
      (summarize (df.filter (inWindow startD endD))))

/-- One input row of `compute_snapshot_unsold_inventory`: the group column
value and the two (already parsed) date columns it reads. -/
structure SnapRow where
  groupVal : String
  SALE_DATE : Option Int
  EST_COE_DATE : Option Int
deriving DecidableEq

/-- The lines 157–161 selection: not sold as of the snapshot (`SALE_DATE`
null or after it) and `EST_COE_DATE` inside the inclusive COE window (a NaT
`EST_COE_DATE` compares `False`). -/
def snapSelected (snapshotDate coeStart coeEnd : Int) (r : SnapRow) : Bool :=
  (r.SALE_DATE.isNone ||
    (match r.SALE_DATE with
     | some d => decide (snapshotDate < d)
     | none => false)) &&
  (match r.EST_COE_DATE with
   | some c => decide (coeStart ≤ c) && decide (c ≤ coeEnd)
   | none => false)

/-- One output row of `compute_snapshot_unsold_inventory`. -/
structure SnapOutRow where
  key : String
  Unsold : Nat
  Avg_Age : Option ℚ
  Week : String
deriving DecidableEq

/-- `compute_snapshot_unsold_inventory` (lines 151–170): select, derive
`Age = (EST_COE_DATE - snapshot_date).days`, group by the group column,
aggregate `Unsold` as the count of non-null `EST_COE_DATE` cells and
`Avg_Age` as the mean age, and tag with the label. -/
def compute_snapshot_unsold_inventory (df : List SnapRow)
    (snapshotDate coeStart coeEnd : Int) (label : String) : List SnapOutRow :=
  (uniqKeys ((df.filter (snapSelected snapshotDate coeStart coeEnd)).map
      (fun r => r.groupVal))).map (fun k =>
    { key := k
      Unsold :=
        (((df.filter (snapSelected snapshotDate coeStart coeEnd)).filter
            (fun r => r.groupVal == k)).filterMap
          (fun r => r.EST_COE_DATE)).length
      Avg_Age :=
        meanOpt (((df.filter (snapSelected snapshotDate coeStart coeEnd)).filter
            (fun r => r.groupVal == k)).map
          (fun r => r.EST_COE_DATE.map (fun c => ((c - snapshotDate : Int) : ℚ))))
      Week := label })

/-- A date-typed DataFrame cell: either still raw text or already parsed by
`pd.to_datetime` (needed to state which engines rewrite their input's date
columns in place). -/
inductive DateCell where
  | raw : String → DateCell
  | parsed : Option Int → DateCell
deriving DecidableEq

/-- `pd.to_datetime(col, errors='coerce')` as a column rewrite: raw text is
parsed, an already-parsed cell is unchanged. -/
def pd_to_datetime_cell : DateCell → DateCell
  | .raw s => .parsed (parseDate s)
  | .parsed d => .parsed d

/-- A row of the caller's enriched table as seen by the three metric engines,
with the two date columns kept as cells and every remaining column bundled in
`otherColumns` (their content is irrelevant to the frame property). -/
structure MRow where
  HS_TYPE : String
  communityName : String
  SALE_DATE : DateCell
  EST_COE_DATE : DateCell
  otherColumns : List String
deriving DecidableEq

/-- What `compute_pace_vs_margin` does to its caller's table: lines 177–178
assign `df['EST_COE_DATE'] = pd.to_datetime(...)` and `df['SALE_DATE'] =
pd.to_datetime(...)` on the argument itself (no copy is taken), so the two
date columns of the caller's object are overwritten in place; every other
column is untouched (all later steps build new frames). -/
def compute_pace_vs_margin_table (df : List MRow) : List MRow :=
  df.map (fun r =>
    { r with
      EST_COE_DATE := pd_to_datetime_cell r.EST_COE_DATE
      SALE_DATE := pd_to_datetime_cell r.SALE_DATE })

/-- What `compute_plan_pricing` does to its caller's table: line 108 rebinds
`df = df.copy()` before any mutation, so every later column assignment hits
the private copy and the caller's table is unchanged. -/
def compute_plan_pricing_table (df : List MRow) : List MRow := df

/-- What `compute_snapshot_unsold_inventory` does to its caller's table: it
only reads `df` (the filtered subset is materialized with `.copy()` on line
161 before the `Age` column is added), so the caller's table is unchanged. -/
def compute_snapshot_unsold_inventory_table (df : List MRow) : List MRow := df

/-- Example reference rows used by the concrete theorems below. -/
def hubEx : List HubRow :=
  [{ communityNumber := 12345, hub := "North", communityName := "Sunrise " }]

def planEx : List PlanRow :=
  [{ planCode := " 120 ", planName := " PlanA", collection := "Coll1" }]

/-- A raw row whose community prefix parses and whose keys match `hubEx` /
`planEx`. -/
def goodRowEx : RawRow :=
  { COMMUNITY := "12345A", PLAN_CODE := "120.0", SALE_DATE := "100",
    EST_COE_DATE := "120", NHC_NAME := "X", COBROKE_Y_N := none,
    SALES_CANCELLATION_DATE := "nan", HS_TYPE := "S" }

/-- A raw row whose first five community characters are non-numeric. -/
def badRowEx : RawRow :=
  { COMMUNITY := "ABCDE123", PLAN_CODE := "7", SALE_DATE := "100",
    EST_COE_DATE := "120", NHC_NAME := "X", COBROKE_Y_N := some "Y",
    SALES_CANCELLATION_DATE := "nan", HS_TYPE := "B" }

/-- A raw row matching neither reference table, with an unparseable sale
date. -/
def loneRowEx : RawRow :=
  { COMMUNITY := "99999Z", PLAN_CODE := "777", SALE_DATE := "abc",
    EST_COE_DATE := "", NHC_NAME := "PEREZ, LARRY", COBROKE_Y_N := some " Y ",
    SALES_CANCELLATION_DATE := "55", HS_TYPE := "Q" }

/-- Example pricing rows (group "A" has one null base price and one null
square footage). -/
def prEx1 : PriceRow :=
  { groupVal := "A", SALE_DATE := some 5, BASE_PRICE := "$100",
    HOMESITE_PREMIUM := "nan", PRICE_REDUCTION_INCENTIVES := "(50)",
    OPTION_REVENUE := "10", Net_Sales_Price := "200", TOTAL_SQFT := some 1500 }

def prEx2 : PriceRow :=
  { groupVal := "A", SALE_DATE := some 6, BASE_PRICE := "oops",
    HOMESITE_PREMIUM := "0", PRICE_REDUCTION_INCENTIVES := "0",
    OPTION_REVENUE := "0", Net_Sales_Price := "nan", TOTAL_SQFT := none }

def prEx3 : PriceRow :=
  { groupVal := "B", SALE_DATE := none, BASE_PRICE := "1",
    HOMESITE_PREMIUM := "1", PRICE_REDUCTION_INCENTIVES := "1",
    OPTION_REVENUE := "1", Net_Sales_Price := "1", TOTAL_SQFT := some 1 }

/-- Example snapshot rows: `srEx1` is unsold with a COE before the snapshot
(negative age), `srEx2` sells after the snapshot, `srEx3` sold before it,
`srEx4` has no COE date. -/
def srEx1 : SnapRow := { groupVal := "A", SALE_DATE := none, EST_COE_DATE := some 90 }

def srEx2 : SnapRow := { groupVal := "A", SALE_DATE := some 150, EST_COE_DATE := some 130 }

def srEx3 : SnapRow := { groupVal := "B", SALE_DATE := some 50, EST_COE_DATE := some 110 }

def srEx4 : SnapRow := { groupVal := "C", SALE_DATE := none, EST_COE_DATE := none }

/-- The expected snapshot output row for group "A" of the example rows. -/
def snapOutEx : SnapOutRow :=
  { key := "A", Unsold := 2, Avg_Age := some 10, Week := "LW" }

/-- An enriched-table row whose date columns still hold raw text. -/
def mrowEx : MRow :=
  { HS_TYPE := "S", communityName := "A", SALE_DATE := .raw "100",
    EST_COE_DATE := .raw "x", otherColumns := [] }

/-- A left-to-right scan removing `".0"` also removes a trailing `".0"`:
appending `".0"` never creates or destroys earlier matches because the
pattern cannot straddle the boundary (its first character `.` never follows
a match head). -/
theorem stripDotZero_append_dotZero :
    ∀ l : List Char, stripDotZero (l ++ ['.', '0']) = stripDotZero l
  | [] => rfl
  | [c] => by
    show stripDotZero [c, '.', '0'] = stripDotZero [c]
    simp +decide [stripDotZero]
  | c1 :: c2 :: rest => by
    by_cases h : c1 = '.' ∧ c2 = '0'
    · obtain ⟨h1, h2⟩ := h
      subst h1; subst h2
      show stripDotZero (rest ++ ['.', '0']) = stripDotZero rest
      exact stripDotZero_append_dotZero rest
    · show stripDotZero (c1 :: c2 :: (rest ++ ['.', '0'])) = _
      simp only [stripDotZero, if_neg h]
      exact congrArg (c1 :: ·) (stripDotZero_append_dotZero (c2 :: rest))

/-- A string with no occurrence of `".0"` is unchanged by the removal. -/
theorem stripDotZero_of_not_hasDotZero :
    ∀ l : List Char, hasDotZero l = false → stripDotZero l = l
  | [], _ => rfl
  | [_], _ => rfl
  | c1 :: c2 :: rest, h => by
    by_cases hc : c1 = '.' ∧ c2 = '0'
    · rw [hasDotZero, if_pos hc] at h
      exact absurd h (by simp)
    · rw [hasDotZero, if_neg hc] at h
      rw [stripDotZero, if_neg hc,
        stripDotZero_of_not_hasDotZero (c2 :: rest) h]

/-- Membership in the distinct-keys list is membership in the original. -/
theorem mem_uniqKeys :
    ∀ (l : List String) (a : String), a ∈ uniqKeys l ↔ a ∈ l
  | [] , a => by simp [uniqKeys]
  | k :: rest, a => by
    rw [uniqKeys]
    by_cases ha : a = k
    · subst ha; simp
    · have := mem_uniqKeys (rest.filter (fun x => x ≠ k)) a
      simp only [List.mem_cons, this, List.mem_filter, decide_eq_true_eq]
      constructor
      · rintro (h | ⟨h, _⟩)
        · exact Or.inl h
        · exact Or.inr h
      · rintro (h | h)
        · exact Or.inl h
        · exact Or.inr ⟨h, ha⟩
termination_by l => l.length
decreasing_by
  simp only [List.length_cons]
  exact Nat.lt_succ_of_le (List.length_filter_le _ _)

/-- The distinct-keys list has no duplicates. -/
theorem nodup_uniqKeys : ∀ l : List String, (uniqKeys l).Nodup
  | [] => by simp [uniqKeys]
  | k :: rest => by
    rw [uniqKeys]
    refine List.nodup_cons.mpr ⟨?_, nodup_uniqKeys (rest.filter (fun x => x ≠ k))⟩
    intro hmem
    have h2 := (mem_uniqKeys _ _).mp hmem
    simp only [List.mem_filter, decide_eq_true_eq] at h2
    exact h2.2 rfl
termination_by l => l.length
decreasing_by
  simp only [List.length_cons]
  exact Nat.lt_succ_of_le (List.length_filter_le _ _)

/-- Stable insertion permutes. -/
theorem perm_insertLe (le : PricingSummaryRow → PricingSummaryRow → Bool)
    (a : PricingSummaryRow) :
    ∀ l : List PricingSummaryRow, (insertLe le a l).Perm (a :: l)
  | [] => List.Perm.refl _
  | b :: t => by
    rw [insertLe]
    split
    · exact List.Perm.refl _
    · exact ((perm_insertLe le a t).cons b).trans (List.Perm.swap a b t)

/-- The sort is a permutation of its input. -/
theorem perm_sortLe (le : PricingSummaryRow → PricingSummaryRow → Bool) :
    ∀ l : List PricingSummaryRow, (sortLe le l).Perm l
  | [] => List.Perm.refl _
  | a :: t => (perm_insertLe le a (sortLe le t)).trans ((perm_sortLe le t).cons a)

/-- With pairwise-distinct keys, at most one table row carries a given key. -/
theorem length_filter_key_le_one {α β : Type} [DecidableEq β] (f : α → β)
    (l : List α) (h : (l.map f).Nodup) (v : β) :
    (l.filter (fun x => f x == v)).length ≤ 1 := by
  induction l with
  | nil => simp
  | cons a t ih =>
    simp only [List.map_cons, List.nodup_cons] at h
    obtain ⟨hna, ht⟩ := h
    by_cases hv : f a == v
    · have hemp : t.filter (fun x => f x == v) = [] := by
        rw [List.filter_eq_nil_iff]
        intro x hx hfx
        apply hna
        have : f x = v := by simpa using hfx
        have hav : f a = v := by simpa using hv
        rw [← hav] at this
        exact this ▸ List.mem_map_of_mem f hx
      simp [List.filter_cons, hv, hemp]
    · simp only [List.filter_cons, hv]
      simpa using ih ht

/-- If every cell is non-null, `filterMap` keeps every row (pandas `count`
over an all-non-null column is the row count). -/
theorem length_filterMap_of_all_isSome {α β : Type} (f : α → Option β) :
    ∀ l : List α, (∀ x ∈ l, (f x).isSome) →
      (l.filterMap f).length = l.length := by
  intro l
  induction l with
  | nil => simp
  | cons a t ih =>
    intro h
    cases hfa : f a with
    | none =>
      have := h a (List.mem_cons_self a t)
      rw [hfa] at this
      simp at this
    | some b =>
      rw [List.filterMap_cons, hfa]
      simp only [List.length_cons]
      rw [ih (fun x hx => h x (List.mem_cons_of_mem a hx))]

/-- Mapping a total extraction through optional cells that are all non-null
is mapping the extracted values. -/
theorem filterMap_id_map_of_isSome {α : Type} (g : α → Option Int) (f : Int → ℚ) :
    ∀ l : List α, (∀ x ∈ l, (g x).isSome) →
      ((l.map (fun x => (g x).map f)).filterMap id).length = l.length ∧
      ((l.map (fun x => (g x).map f)).filterMap id) =
        l.map (fun x => f ((g x).getD 0)) := by
  intro l
  induction l with
  | nil => simp
  | cons a t ih =>
    intro h
    cases hga : g a with
    | none =>
      have := h a (List.mem_cons_self a t)
      rw [hga] at this
      simp at this
    | some c =>
      have iht := ih (fun x hx => h x (List.mem_cons_of_mem a hx))
      simp only [List.map_cons, hga, Option.map_some', List.filterMap_cons, id,
        Option.getD_some, List.length_cons]
      exact ⟨by rw [iht.1], by rw [iht.2]⟩

/-- A selected snapshot row always has a closing date. -/
theorem snapSelected_coe_isSome (sd cs ce : Int) (r : SnapRow)
    (h : snapSelected sd cs ce r = true) : r.EST_COE_DATE.isSome := by
  unfold snapSelected at h
  cases hc : r.EST_COE_DATE with
  | none => rw [hc] at h; simp at h
  | some c => simp

/-- Every block a raw row contributes has exactly one row per (hub match ×
plan match) pair, one row total when a side is unmatched. -/
theorem process_row_length_eq_one (hub : List HubRow) (plan : List PlanRow)
    (r : RawRow) (l : List Enriched)
    (hH : (hub.map (fun h => h.communityNumber)).Nodup)
    (hP : (plan.map (fun p => pyStrip p.planCode)).Nodup)
    (h : process_row hub plan r = some l) : l.length = 1 := by
  unfold process_row at h
  cases hp : parseIntStrict (pyTake5 r.COMMUNITY) with
  | none => rw [hp] at h; simp at h
  | some n =>
    rw [hp] at h
    simp only [Option.map_some', Option.some.injEq] at h
    subst h
    have hm : (hubMatches hub n).length ≤ 1 :=
      length_filter_key_le_one (fun h : HubRow => h.communityNumber) hub hH n
    have hm' : (planMatches plan (norm_plan_code r.PLAN_CODE)).length ≤ 1 :=
      length_filter_key_le_one (fun p : PlanRow => pyStrip p.planCode) plan hP
        (norm_plan_code r.PLAN_CODE)
    rcases h3 : hubMatches hub n with _ | ⟨a, ta⟩
    · rcases h4 : planMatches plan (norm_plan_code r.PLAN_CODE) with _ | ⟨b, tb⟩
      · simp [h3, h4]
      · rw [h4] at hm'
        simp only [List.length_cons] at hm'
        have htb : tb = [] := List.eq_nil_of_length_eq_zero (by omega)
        subst htb
        simp [h3, h4]
    · rw [h3] at hm
      simp only [List.length_cons] at hm
      have hta : ta = [] := List.eq_nil_of_length_eq_zero (by omega)
      subst hta
      rcases h4 : planMatches plan (norm_plan_code r.PLAN_CODE) with _ | ⟨b, tb⟩
      · simp [h3, h4]
      · rw [h4] at hm'
        simp only [List.length_cons] at hm'
        have htb : tb = [] := List.eq_nil_of_length_eq_zero (by omega)
        subst htb
        simp [h3, h4]

/-- With duplicate-free reference keys the pipeline emits exactly one row per
raw row. -/
theorem process_rows_length (hub : List HubRow) (plan : List PlanRow)
    (hH : (hub.map (fun h => h.communityNumber)).Nodup)
    (hP : (plan.map (fun p => pyStrip p.planCode)).Nodup) :
    ∀ (matt : List RawRow) (out : List Enriched),
      process_rows hub plan matt = some out → out.length = matt.length
  | [], out, h => by
    simp only [process_rows, Option.some.injEq] at h
    rw [← h]; rfl
  | r :: rest, out, h => by
    rw [process_rows] at h
    cases h1 : process_row hub plan r with
    | none => rw [h1] at h; simp at h
    | some l =>
      cases h2 : process_rows hub plan rest with
      | none => rw [h1, h2] at h; simp at h
      | some ls =>
        rw [h1, h2] at h
        simp only [Option.some.injEq] at h
        rw [← h, List.length_append, List.length_cons,
          process_row_length_eq_one hub plan r l hH hP h1,
          process_rows_length hub plan hH hP rest ls h2]
        omega

/-- Enriched rows produced from a member raw row land in the output. -/
theorem mem_out_of_process_rows (hub : List HubRow) (plan : List PlanRow) :
    ∀ (matt : List RawRow) (out : List Enriched) (r : RawRow)
      (l : List Enriched),
      process_rows hub plan matt = some out → r ∈ matt →
      process_row hub plan r = some l → ∀ e ∈ l, e ∈ out
  | [], _, r, l, _, hr, _, _, _ => absurd hr (List.not_mem_nil r)
  | r' :: rest, out, r, l, h, hr, hl, e, he => by
    rw [process_rows] at h
    cases h1 : process_row hub plan r' with
    | none => rw [h1] at h; simp at h
    | some l' =>
      cases h2 : process_rows hub plan rest with
      | none => rw [h1, h2] at h; simp at h
      | some ls =>
        rw [h1, h2] at h
        simp only [Option.some.injEq] at h
        rw [← h]
        rcases List.mem_cons.mp hr with hrr | hrr
        · subst hrr
          rw [hl] at h1
          cases h1
          exact List.mem_append_left ls he
        · exact List.mem_append_right l'
            (mem_out_of_process_rows hub plan rest ls r l h2 hrr hl e he)

/-- Every output row of the pipeline is an enrichment of some raw row. -/
theorem shape_of_process_rows (hub : List HubRow) (plan : List PlanRow) :
    ∀ (matt : List RawRow) (out : List Enriched),
      process_rows hub plan matt = some out →
      ∀ e ∈ out, ∃ (r : RawRow) (n : Int) (h : Option HubRow)
        (p : Option PlanRow), e = enrichRow r n h p
  | [], out, h, e, he => by
    simp only [process_rows, Option.some.injEq] at h
    rw [← h] at he
    exact absurd he (List.not_mem_nil e)
  | r' :: rest, out, h, e, he => by
    rw [process_rows] at h
    cases h1 : process_row hub plan r' with
    | none => rw [h1] at h; simp at h
    | some l' =>
      cases h2 : process_rows hub plan rest with
      | none => rw [h1, h2] at h; simp at h
      | some ls =>
        rw [h1, h2] at h
        simp only [Option.some.injEq] at h
        rw [← h] at he
        rcases List.mem_append.mp he with hel | hel
        · unfold process_row at h1
          cases hp : parseIntStrict (pyTake5 r'.COMMUNITY) with
          | none => rw [hp] at h1; simp at h1
          | some n =>
            rw [hp] at h1
            simp only [Option.map_some', Option.some.injEq] at h1
            rw [← h1] at hel
            rcases List.mem_flatMap.mp hel with ⟨ho, _, hin⟩
            rcases List.mem_map.mp hin with ⟨po, _, heq⟩
            exact ⟨r', n, ho, po, heq.symm⟩
        · exact shape_of_process_rows hub plan rest ls h2 e hel

/-- C1 counterexample: the source normalization is `str.replace('.0', '',
regex=False)`, which removes every occurrence of the substring `".0"`, not
only a trailing one. `"12.03"` is not left unchanged (it becomes `"123"`),
and `"120.0"` becomes `"120"`, not `"12"`. -/
theorem c1_counterexample :
    norm_plan_code "12.03" = "123" ∧ norm_plan_code "12.03" ≠ "12.03" ∧
    norm_plan_code "120.0" = "120" ∧ norm_plan_code "120.0" ≠ "12" := by
  decide

/-- C1 (amended): plan-code normalization trims and then removes every
left-to-right non-overlapping occurrence of the literal substring `".0"`.
A trailing `".0"` is always removed; a code whose trimmed text has no
`".0"` occurrence is unchanged; and the inner occurrences are removed too:
`"120.0"` → `"120"`, `"12.03"` → `"123"`. -/
theorem c1_norm_plan_code_replace_all :
    (∀ l : List Char, stripDotZero (l ++ ['.', '0']) = stripDotZero l) ∧
    (∀ s : String, hasDotZero (pyStrip s).data = false →
      norm_plan_code s = pyStrip s) ∧
    norm_plan_code "120.0" = "120" ∧ norm_plan_code "12.03" = "123" := by
  refine ⟨stripDotZero_append_dotZero, ?_, by decide, by decide⟩
  intro s h
  show String.mk (stripDotZero (pyStrip s).data) = pyStrip s
  rw [stripDotZero_of_not_hasDotZero _ h]

/-- C1 witness: a concrete code with no `".0"` occurrence is unchanged. -/
theorem c1_norm_plan_code_replace_all_witness :
    hasDotZero (pyStrip " 77A ").data = false ∧
    norm_plan_code " 77A " = pyStrip " 77A " :=
  ⟨by decide, c1_norm_plan_code_replace_all.2.1 " 77A " (by decide)⟩

/-- C2: a raw row whose first five community characters are non-numeric makes
`astype(int)` (line 34) raise, aborting the whole pipeline: with such a row
present the run yields nothing at all (first conjunct), although the same
input without it enriches fine (second conjunct) — the claim (and the spec's
error-handling design) says the bad row alone should fail its join and
survive with null lookup fields. -/
theorem c2_nonnumeric_prefix_aborts :
    process_matt_data [goodRowEx, badRowEx] hubEx planEx = none ∧
    (process_matt_data [goodRowEx] hubEx planEx).isSome = true := by
  decide

/-- C3 counterexample: the source chain `-2 < delta <= 0` excludes −2, so
`classify(-2.0)` falls through to the `else` branch and returns `"Behind"`,
not `"Target"`-side `"Pace"` as the claim's boundary list asserts. -/
theorem c3_counterexample :
    classify (-2) = "Behind" ∧ classify (-2) ≠ "Pace" := by decide

/-- C3 (amended): `classify` is a total first-match-wins partition of the
line: exactly one of the four labels, with `Margin` ↔ Delta > 1, `Target` ↔
0 < Delta ≤ 1, `Pace` ↔ −2 < Delta ≤ 0, `Behind` ↔ Delta ≤ −2; in particular
Delta = 1 → Target, Delta = 0 → Pace, and Delta = −2 → Behind (not Pace). -/
theorem c3_classify_partition : ∀ d : ℚ,
    (classify d = "Margin" ∨ classify d = "Target" ∨ classify d = "Pace" ∨
      classify d = "Behind") ∧
    (classify d = "Margin" ↔ 1 < d) ∧
    (classify d = "Target" ↔ 0 < d ∧ d ≤ 1) ∧
    (classify d = "Pace" ↔ -2 < d ∧ d ≤ 0) ∧
    (classify d = "Behind" ↔ d ≤ -2) := by
  intro d
  unfold classify
  split_ifs with h1 h2 h3
  · exact ⟨Or.inl rfl,
      iff_of_true rfl h1,
      iff_of_false (by decide) (fun hc => absurd h1 (not_lt.mpr hc.2)),
      iff_of_false (by decide) (fun hc => by linarith [hc.2]),
      iff_of_false (by decide) (fun hc => by linarith)⟩
  · exact ⟨Or.inr (Or.inl rfl),
      iff_of_false (by decide) (fun hc => absurd hc (by exact h1)),
      iff_of_true rfl h2,
      iff_of_false (by decide) (fun hc => by rcases h2 with ⟨ha, _⟩; linarith [hc.2]),
      iff_of_false (by decide) (fun hc => by rcases h2 with ⟨ha, _⟩; linarith)⟩
  · exact ⟨Or.inr (Or.inr (Or.inl rfl)),
      iff_of_false (by decide) (fun hc => absurd hc (by exact h1)),
      iff_of_false (by decide) (fun hc => absurd hc (by exact h2)),
      iff_of_true rfl h3,
      iff_of_false (by decide) (fun hc => by rcases h3 with ⟨ha, _⟩; linarith)⟩
  · have hd1 : d ≤ 1 := not_lt.mp h1
    have hd0 : d ≤ 0 := by
      by_contra hh
      push_neg at hh
      exact h2 ⟨hh, hd1⟩
    have hd2 : d ≤ -2 := by
      by_contra hh
      push_neg at hh
      exact h3 ⟨hh, hd0⟩
    exact ⟨Or.inr (Or.inr (Or.inr rfl)),
      iff_of_false (by decide) (fun hc => by linarith),
      iff_of_false (by decide) (fun hc => by linarith [hc.1]),
      iff_of_false (by decide) (fun hc => by linarith [hc.1]),
      iff_of_true rfl hd2⟩

/-- C4 counterexample: a duplicated join key in the Hub reference duplicates
the matching raw row — one raw row in, two enriched rows out (pandas left
merge emits one row per matching right-table row). -/
theorem c4_counterexample :
    (process_matt_data [goodRowEx] (hubEx ++ hubEx) planEx).map List.length =
      some 2 ∧ (2 : Nat) ≠ 1 := by decide

/-- C4 (amended): row count is preserved exactly — no drop, no duplication —
whenever the reference tables have duplicate-free join keys (Hub community
numbers and trimmed Plan codes); with repeated reference keys the merge
duplicates matching rows instead. -/
theorem c4_row_count_with_unique_keys (matt : List RawRow) (hub : List HubRow)
    (plan : List PlanRow) (out : List Enriched)
    (hH : (hub.map (fun h => h.communityNumber)).Nodup)
    (hP : (plan.map (fun p => pyStrip p.planCode)).Nodup)
    (h : process_matt_data matt hub plan = some out) :
    out.length = matt.length :=
  process_rows_length hub plan hH hP matt out h

/-- C4 witness: a concrete two-row run against duplicate-free references
yields exactly two enriched rows. -/
theorem c4_row_count_with_unique_keys_witness :
    ((process_matt_data [goodRowEx, loneRowEx] hubEx planEx).getD []).length = 2 :=
  c4_row_count_with_unique_keys [goodRowEx, loneRowEx] hubEx planEx
    ((process_matt_data [goodRowEx, loneRowEx] hubEx planEx).getD [])
    (by decide) (by decide) (by decide)

/-- C5 counterexample: an unmatched row does survive, but lines 42–44 apply
`astype(str)` to the merged lookup columns, so its null `Hub`,
`Community Name` and `Plan Name` become the literal string `"nan"` — a
non-null, non-blank placeholder — contradicting the claim that the lookup
fields of an unmatched row are only ever null/blank. (`Collection` is never
restringified and does stay null.) -/
theorem c5_counterexample :
    process_matt_data [loneRowEx] hubEx planEx =
      some [enrichRow loneRowEx 99999 none none] ∧
    (enrichRow loneRowEx 99999 none none).Hub = "nan" ∧
    (enrichRow loneRowEx 99999 none none).Hub ≠ "" ∧
    (enrichRow loneRowEx 99999 none none).communityName = "nan" ∧
    (enrichRow loneRowEx 99999 none none).planName = "nan" ∧
    (enrichRow loneRowEx 99999 none none).Collection = none := by decide

/-- C5 (amended): a raw row whose community number matches no Hub row and
whose normalized plan code matches no Plan row is retained in the output
(never dropped); its `Collection` is null, while its `Hub`,
`Community Name` and `Plan Name` hold the stringified null `"nan"` (not a
true null/blank). -/
theorem c5_unmatched_row_retained (matt : List RawRow) (hub : List HubRow)
    (plan : List PlanRow) (out : List Enriched) (r : RawRow) (n : Int)
    (hrun : process_matt_data matt hub plan = some out) (hr : r ∈ matt)
    (hn : parseIntStrict (pyTake5 r.COMMUNITY) = some n)
    (hhub : hubMatches hub n = [])
    (hplan : planMatches plan (norm_plan_code r.PLAN_CODE) = []) :
    enrichRow r n none none ∈ out ∧
    (enrichRow r n none none).Hub = "nan" ∧
    (enrichRow r n none none).communityName = "nan" ∧
    (enrichRow r n none none).planName = "nan" ∧
    (enrichRow r n none none).Collection = none := by
  have hpr : process_row hub plan r = some [enrichRow r n none none] := by
    unfold process_row
    rw [hn]
    simp [hhub, hplan]
  exact ⟨mem_out_of_process_rows hub plan matt out r _ hrun hr hpr _
      (List.mem_singleton_self _), rfl, rfl, rfl, rfl⟩

/-- C5 witness: the doubly-unmatched example row is retained with `"nan"`
lookup names and a null collection. -/
theorem c5_unmatched_row_retained_witness :
    enrichRow loneRowEx 99999 none none ∈
      (process_matt_data [loneRowEx] hubEx planEx).getD [] ∧
    (enrichRow loneRowEx 99999 none none).Hub = "nan" ∧
    (enrichRow loneRowEx 99999 none none).communityName = "nan" ∧
    (enrichRow loneRowEx 99999 none none).planName = "nan" ∧
    (enrichRow loneRowEx 99999 none none).Collection = none :=
  c5_unmatched_row_retained [loneRowEx] hubEx planEx
    ((process_matt_data [loneRowEx] hubEx planEx).getD []) loneRowEx 99999
    (by decide) (by decide) (by decide) (by decide) (by decide)

/-- C6 counterexample: `Weekday_Group` is built with `np.where` (lines
52–54), which never produces a null: a record with a null `SALE_DATE` (and
hence null `DOW_Sale`) is assigned `"M-F"`, not null — nulls do not
propagate. -/
theorem c6_counterexample :
    process_matt_data [loneRowEx] hubEx planEx =
      some [enrichRow loneRowEx 99999 none none] ∧
    (enrichRow loneRowEx 99999 none none).SALE_DATE = none ∧
    (enrichRow loneRowEx 99999 none none).DOW_Sale = none ∧
    (enrichRow loneRowEx 99999 none none).Weekday_Group = "M-F" := by decide

/-- Case analysis of the `np.where` weekend split over one day-of-week
cell. -/
theorem weekday_group_cases (dow : Option String) :
    (((if dowIsWeekend dow then "Sat-Sun" else "M-F") = "Sat-Sun") ↔
      (dow = some "Saturday" ∨ dow = some "Sunday")) ∧
    ((if dowIsWeekend dow then "Sat-Sun" else "M-F") = "Sat-Sun" ∨
      (if dowIsWeekend dow then "Sat-Sun" else "M-F") = "M-F") := by
  cases dow with
  | none => simp +decide [dowIsWeekend]
  | some d =>
    by_cases h1 : d = "Saturday"
    · subst h1
      simp +decide [dowIsWeekend]
    · by_cases h2 : d = "Sunday"
      · subst h2
        simp +decide [dowIsWeekend]
      · have hw : dowIsWeekend (some d) = false := by
          simp [dowIsWeekend, h1, h2]
        simp +decide [hw, h1, h2]

/-- C6 (amended): for every enriched record, `Weekday_Group` is `"Sat-Sun"`
exactly when `DOW_Sale` is Saturday or Sunday and `"M-F"` otherwise,
including when `SALE_DATE` (hence `DOW_Sale`) is null — the null case is
assigned `"M-F"` rather than propagating. -/
theorem c6_weekday_group_total (matt : List RawRow) (hub : List HubRow)
    (plan : List PlanRow) (out : List Enriched)
    (h : process_matt_data matt hub plan = some out) :
    ∀ er ∈ out,
      (er.Weekday_Group = "Sat-Sun" ↔
        (er.DOW_Sale = some "Saturday" ∨ er.DOW_Sale = some "Sunday")) ∧
      (er.Weekday_Group = "Sat-Sun" ∨ er.Weekday_Group = "M-F") ∧
      (er.SALE_DATE = none → er.Weekday_Group = "M-F") ∧
      (er.SALE_DATE = none ↔ er.DOW_Sale = none) := by
  intro er her
  obtain ⟨r, n, ho, po, heq⟩ := shape_of_process_rows hub plan matt out h er her
  subst heq
  have hWG : (enrichRow r n ho po).Weekday_Group =
      (if dowIsWeekend ((parseDate r.SALE_DATE).map day_name) then "Sat-Sun"
       else "M-F") := rfl
  have hDOW : (enrichRow r n ho po).DOW_Sale =
      (parseDate r.SALE_DATE).map day_name := rfl
  have hSD : (enrichRow r n ho po).SALE_DATE = parseDate r.SALE_DATE := rfl
  rw [hWG, hDOW, hSD]
  refine ⟨(weekday_group_cases _).1, (weekday_group_cases _).2, ?_, ?_⟩
  · intro h0
    rw [h0]
    simp [dowIsWeekend]
  · simp [Option.map_eq_none']

/-- C6 witness: the amended rule applied to a concrete run containing a
null-sale-date record. -/
theorem c6_weekday_group_total_witness :
    ((enrichRow loneRowEx 99999 none none).Weekday_Group = "Sat-Sun" ↔
      ((enrichRow loneRowEx 99999 none none).DOW_Sale = some "Saturday" ∨
       (enrichRow loneRowEx 99999 none none).DOW_Sale = some "Sunday")) ∧
    ((enrichRow loneRowEx 99999 none none).Weekday_Group = "Sat-Sun" ∨
     (enrichRow loneRowEx 99999 none none).Weekday_Group = "M-F") ∧
    ((enrichRow loneRowEx 99999 none none).SALE_DATE = none →
      (enrichRow loneRowEx 99999 none none).Weekday_Group = "M-F") ∧
    ((enrichRow loneRowEx 99999 none none).SALE_DATE = none ↔
      (enrichRow loneRowEx 99999 none none).DOW_Sale = none) :=
  c6_weekday_group_total [loneRowEx] hubEx planEx
    [enrichRow loneRowEx 99999 none none] (by decide)
    (enrichRow loneRowEx 99999 none none) (List.mem_singleton_self _)

/-- C7: the pace engine's slope guard — a target on or before today gives
`weeks_left ≤ 0` and slope 0 (the guarded branch, no division performed); a
strictly future target gives a positive `weeks_left` equal to the day
difference over 7 and slope `1 / weeks_left`. -/
theorem c7_slope_guard : ∀ today target : Int,
    (weeks_left today target ≤ 0 ↔ target ≤ today) ∧
    (target ≤ today → slope today target = 0) ∧
    (today < target →
      slope today target = 1 / weeks_left today target ∧
      0 < weeks_left today target ∧
      weeks_left today target = ((target - today : Int) : ℚ) / 7) := by
  intro today target
  have h7 : (0 : ℚ) < 7 := by norm_num
  have key : weeks_left today target ≤ 0 ↔ target ≤ today := by
    unfold weeks_left
    rw [div_le_iff₀ h7, zero_mul]
    constructor
    · intro h
      have h2 : (target - today : Int) ≤ 0 := by exact_mod_cast h
      omega
    · intro h
      have h2 : (target - today : Int) ≤ 0 := by omega
      exact_mod_cast h2
  refine ⟨key, ?_, ?_⟩
  · intro h
    unfold slope
    rw [if_neg (not_lt.mpr (key.mpr h))]
  · intro h
    have hpos : 0 < weeks_left today target := by
      unfold weeks_left
      apply div_pos _ h7
      have h2 : (0 : Int) < target - today := by omega
      exact_mod_cast h2
    exact ⟨by unfold slope; rw [if_pos hpos], hpos, rfl⟩

/-- C7 witness: a past target yields slope 0; a target two weeks out yields
slope `1 / weeks_left`. -/
theorem c7_slope_guard_witness :
    slope 10 3 = 0 ∧ slope 0 14 = 1 / weeks_left 0 14 :=
  ⟨(c7_slope_guard 10 3).2.1 (by decide), ((c7_slope_guard 0 14).2.2 (by decide)).1⟩

/-- C8: monetary text with `$`/`,`/parenthesized negatives is coerced with
failures becoming null; `List Price` is the null-to-0 coalesced sum of the
four components; group averages skip nulls (`meanOpt` drops them instead of
counting them as 0), and each surviving group key yields exactly one summary
row holding exactly those aggregates. -/
theorem c8_plan_pricing (df : List PriceRow) (startD endD : Int) (k : String) :
    (cleanMoney "$1,234.50" = some (2469/2) ∧ cleanMoney "(500)" = some (-500) ∧
      cleanMoney "($2,000)" = some (-2000) ∧ cleanMoney "abc" = none ∧
      cleanMoney "nan" = none) ∧
    (∀ r : PriceRow, list_price r =
      (cleanMoney r.BASE_PRICE).getD 0 + (cleanMoney r.HOMESITE_PREMIUM).getD 0 +
      (cleanMoney r.PRICE_REDUCTION_INCENTIVES).getD 0 +
      (cleanMoney r.OPTION_REVENUE).getD 0) ∧
    (∀ l : List (Option ℚ), meanOpt (none :: l) = meanOpt l) ∧
    (k ∈ (df.filter (inWindow startD endD)).map (fun r => r.groupVal) →
      (compute_plan_pricing df startD endD).countP (fun o => o.key == k) = 1 ∧
      ∀ o ∈ compute_plan_pricing df startD endD, o.key = k →
        o = summarize (df.filter (inWindow startD endD)) k) := by
  refine ⟨⟨?_, ?_, ?_, ?_, ?_⟩, fun r => rfl, fun l => rfl, ?_⟩
  · simp +decide [cleanMoney, stripDollarComma, parenNeg, to_numeric, numAbs,
      splitDot, digitsVal, digitsNat]
    norm_num
  · simp +decide [cleanMoney, stripDollarComma, parenNeg, to_numeric, numAbs,
      splitDot, digitsVal, digitsNat]
  · simp +decide [cleanMoney, stripDollarComma, parenNeg, to_numeric, numAbs,
      splitDot, digitsVal, digitsNat]
  · simp +decide [cleanMoney, stripDollarComma, parenNeg, to_numeric, numAbs,
      splitDot, digitsVal, digitsNat]
  · simp +decide [cleanMoney, stripDollarComma, parenNeg, to_numeric, numAbs,
      splitDot, digitsVal, digitsNat]
  · intro hk
    have hperm := perm_sortLe sqftLe
      ((uniqKeys ((df.filter (inWindow startD endD)).map
          (fun r => r.groupVal))).map
        (summarize (df.filter (inWindow startD endD))))
    constructor
    · show (compute_plan_pricing df startD endD).countP (fun o => o.key == k) = 1
      unfold compute_plan_pricing
      rw [hperm.countP_eq]
      rw [List.countP_map]
      show List.countP (fun x => x == k)
        (uniqKeys ((df.filter (inWindow startD endD)).map
          (fun r => r.groupVal))) = 1
      rw [← List.count]
      exact List.count_eq_one_of_mem (nodup_uniqKeys _)
        ((mem_uniqKeys _ _).mpr hk)
    · intro o ho hko
      have ho2 : o ∈ (uniqKeys ((df.filter (inWindow startD endD)).map
          (fun r => r.groupVal))).map
            (summarize (df.filter (inWindow startD endD))) :=
        hperm.mem_iff.mp ho
      obtain ⟨k', _, heq⟩ := List.mem_map.mp ho2
      rw [← heq] at hko ⊢
      have hkk : k' = k := hko
      rw [hkk]

/-- C8 witness: the concrete pricing rows survive the window filter with
group "A" present, and the output has exactly one summary row for "A". -/
theorem c8_plan_pricing_witness :
    "A" ∈ ([prEx1, prEx2, prEx3].filter (inWindow 0 10)).map
        (fun r => r.groupVal) ∧
    (compute_plan_pricing [prEx1, prEx2, prEx3] 0 10).countP
        (fun o => o.key == "A") = 1 :=
  ⟨by decide,
    ((c8_plan_pricing [prEx1, prEx2, prEx3] 0 10 "A").2.2.2 (by decide)).1⟩

/-- C9: the snapshot aggregator selects exactly the rows with (null or
post-snapshot sale date) and closing date inside the inclusive window; a key
appears in the output exactly when some selected row carries it; and each
output row is tagged with the label, counts the selected rows of its group
(the count column is non-null for every selected row), and averages their
signed day ages. -/
theorem c9_snapshot_unsold (df : List SnapRow) (sd cs ce : Int)
    (label : String) :
    (∀ r : SnapRow, snapSelected sd cs ce r = true ↔
      ((r.SALE_DATE = none ∨ ∃ d, r.SALE_DATE = some d ∧ sd < d) ∧
       (∃ c, r.EST_COE_DATE = some c ∧ cs ≤ c ∧ c ≤ ce))) ∧
    (∀ k : String,
      ((∃ o ∈ compute_snapshot_unsold_inventory df sd cs ce label, o.key = k) ↔
       (∃ r ∈ df, snapSelected sd cs ce r = true ∧ r.groupVal = k))) ∧
    (∀ o ∈ compute_snapshot_unsold_inventory df sd cs ce label,
      o.Week = label ∧
      o.Unsold = ((df.filter (snapSelected sd cs ce)).filter
        (fun r => r.groupVal == o.key)).length ∧
      o.Avg_Age = some (
        ((((df.filter (snapSelected sd cs ce)).filter
            (fun r => r.groupVal == o.key)).map
          (fun r => ((r.EST_COE_DATE.getD 0 - sd : Int) : ℚ))).sum) /
        (((df.filter (snapSelected sd cs ce)).filter
            (fun r => r.groupVal == o.key)).length))) := by
  refine ⟨?_, ?_, ?_⟩
  · intro r
    unfold snapSelected
    cases hs : r.SALE_DATE <;> cases hc : r.EST_COE_DATE <;> simp [hs, hc]
  · intro k
    constructor
    · rintro ⟨o, ho, hko⟩
      obtain ⟨k', hk', heq⟩ := List.mem_map.mp ho
      rw [← heq] at hko
      have hkk : k' = k := hko
      subst hkk
      have hk2 := (mem_uniqKeys _ _).mp hk'
      obtain ⟨r, hr, hrk⟩ := List.mem_map.mp hk2
      have hrf := List.mem_filter.mp hr
      exact ⟨r, hrf.1, hrf.2, hrk⟩
    · rintro ⟨r, hr, hsel, hrk⟩
      have hkmem : k ∈ uniqKeys ((df.filter (snapSelected sd cs ce)).map
          (fun r => r.groupVal)) :=
        (mem_uniqKeys _ _).mpr
          (List.mem_map.mpr ⟨r, List.mem_filter.mpr ⟨hr, hsel⟩, hrk⟩)
      exact ⟨_, List.mem_map_of_mem _ hkmem, rfl⟩
  · intro o ho
    obtain ⟨k', hk', heq⟩ := List.mem_map.mp ho
    rw [← heq]
    have hsome : ∀ r ∈ (df.filter (snapSelected sd cs ce)).filter
        (fun r => r.groupVal == k'), (r.EST_COE_DATE).isSome := by
      intro r hr
      have hr2 := List.mem_filter.mp (List.mem_filter.mp hr).1
      exact snapSelected_coe_isSome sd cs ce r hr2.2
    have hne : (df.filter (snapSelected sd cs ce)).filter
        (fun r => r.groupVal == k') ≠ [] := by
      have hk2 := (mem_uniqKeys _ _).mp hk'
      obtain ⟨r, hr, hrk⟩ := List.mem_map.mp hk2
      exact List.ne_nil_of_mem (List.mem_filter.mpr ⟨hr, by simp [hrk]⟩)
    refine ⟨rfl, ?_, ?_⟩
    · exact length_filterMap_of_all_isSome _ _ hsome
    · show meanOpt _ = _
      have hfm := filterMap_id_map_of_isSome (fun r : SnapRow => r.EST_COE_DATE)
        (fun c => ((c - sd : Int) : ℚ)) _ hsome
      unfold meanOpt
      rw [hfm.2, if_neg (by
        simp only [List.isEmpty_iff, List.map_eq_nil_iff]
        exact hne)]
      rw [List.length_map]

/-- C9 witness: applied to the concrete snapshot rows — the output row for
group "A" counts two unsold homes and averages the signed ages −10 and 30 to
10, tagged "LW". -/
theorem c9_snapshot_unsold_witness :
    snapOutEx.Week = "LW" ∧
    snapOutEx.Unsold =
      (([srEx1, srEx2, srEx3, srEx4].filter (snapSelected 100 80 140)).filter
        (fun r => r.groupVal == snapOutEx.key)).length ∧
    snapOutEx.Avg_Age = some (
      (((([srEx1, srEx2, srEx3, srEx4].filter (snapSelected 100 80 140)).filter
          (fun r => r.groupVal == snapOutEx.key)).map
        (fun r => ((r.EST_COE_DATE.getD 0 - 100 : Int) : ℚ))).sum) /
      ((([srEx1, srEx2, srEx3, srEx4].filter (snapSelected 100 80 140)).filter
          (fun r => r.groupVal == snapOutEx.key)).length)) :=
  (c9_snapshot_unsold [srEx1, srEx2, srEx3, srEx4] 100 80 140 "LW").2.2
    snapOutEx
    (by
      have h : compute_snapshot_unsold_inventory [srEx1, srEx2, srEx3, srEx4]
          100 80 140 "LW" = [snapOutEx] := by
        simp +decide [compute_snapshot_unsold_inventory, uniqKeys, snapSelected,
          meanOpt, srEx1, srEx2, srEx3, srEx4, snapOutEx]
        norm_num
      rw [h]
      exact List.mem_singleton_self _)

/-- C10: `compute_plan_pricing` and `compute_snapshot_unsold_inventory` leave
the caller's table unchanged, while `compute_pace_vs_margin` overwrites its
`SALE_DATE` and `EST_COE_DATE` columns in place with re-parsed values
(leaving every other column of every row intact) — and this is observable:
on a table whose date cells still hold raw text the table changes. -/
theorem c10_frame_effects :
    (∀ df : List MRow, compute_plan_pricing_table df = df) ∧
    (∀ df : List MRow, compute_snapshot_unsold_inventory_table df = df) ∧
    (∀ (df : List MRow) (i : Nat),
      ((compute_pace_vs_margin_table df)[i]?).map (fun r => r.SALE_DATE) =
        (df[i]?).map (fun r => pd_to_datetime_cell r.SALE_DATE) ∧
      ((compute_pace_vs_margin_table df)[i]?).map (fun r => r.EST_COE_DATE) =
        (df[i]?).map (fun r => pd_to_datetime_cell r.EST_COE_DATE) ∧
      ((compute_pace_vs_margin_table df)[i]?).map
          (fun r => (r.HS_TYPE, r.communityName, r.otherColumns)) =
        (df[i]?).map (fun r => (r.HS_TYPE, r.communityName, r.otherColumns))) ∧
    compute_pace_vs_margin_table [mrowEx] ≠ [mrowEx] := by
  refine ⟨fun df => rfl, fun df => rfl, ?_, by decide⟩
  intro df i
  unfold compute_pace_vs_margin_table
  rw [List.getElem?_map]
  refine ⟨?_, ?_, ?_⟩ <;> cases df[i]? <;> rfl

end MattReport
